import Mathlib

/-!
Shallow embedding of the query execution and result retrieval engine of
`src/dremioai/api/dremio/sql.py`, together with theorems checking the
natural-language specification against it.

Python values are modelled as follows: `Optional[T]` becomes `Option T`,
machine integers become `Nat`/`Int` (all counts involved are non-negative),
`dict` rows become insertion-ordered association lists, exceptions become
`Except String`, and network calls become oracle function parameters.
-/

namespace DremioSql

/-- JobState enum of sql.py (lines 58-72), in source order. -/
inductive JobState where
  | NOT_SUBMITTED
  | STARTING
  | RUNNING
  | COMPLETED
  | CANCELED
  | FAILED
  | CANCELLATION_REQUESTED
  | PLANNING
  | PENDING
  | METADATA_RETRIEVAL
  | QUEUED
  | ENGINE_START
  | EXECUTION_PLANNING
  | INVALID_STATE
  deriving DecidableEq, Repr

/-- QueryType enum of sql.py (lines 75-89). -/
inductive QueryType where
  | UI_RUN
  | UI_PREVIEW
  | UI_INTERNAL_PREVIEW
  | UI_INTERNAL_RUN
  | UI_EXPORT
  | ODBC
  | JDBC
  | REST
  | ACCELERATOR_CREATE
  | ACCELERATOR_DROP
  | UNKNOWN
  | PREPARE_INTERNAL
  | ACCELERATOR_EXPLAIN
  | UI_INITIAL_PREVIEW
  deriving DecidableEq, Repr

/-- Relationship enum of sql.py (lines 92-95). -/
inductive Relationship where
  | CONSIDERED
  | MATCHED
  | CHOSEN
  deriving DecidableEq, Repr

/-- ReflectionReleationShips model of sql.py (lines 98-101); the name keeps the
source's spelling. -/
structure ReflectionReleationShips where
  dataset_id : String
  reflection_id : String
  relationship : Relationship
  deriving DecidableEq, Repr

/-- Acceleration model of sql.py (lines 104-107). -/
structure Acceleration where
  reflection_relationships : List ReflectionReleationShips
  deriving DecidableEq, Repr

/-- Opaque stand-in for Python datetime instants carried by Job; their value
never influences control flow in sql.py. -/
structure DateTime where
  millis : Int
  deriving DecidableEq, Repr

/-- Job model of sql.py (lines 110-126).  `row_count` is `Optional[int]` with
default 0: absent deserializes to `some 0`, JSON null to `none`. -/
structure Job where
  job_state : JobState
  row_count : Option Nat := some 0
  error_message : Option String := none
  started_at : Option DateTime := none
  ended_at : Option DateTime := none
  acceleration : Option Acceleration := none
  query_type : QueryType := QueryType.REST
  queue_name : Option String := none
  queue_id : Option String := none
  resource_scheduling_started_at : Option DateTime := none
  resource_scheduling_ended_at : Option DateTime := none
  cancellation_reason : Option String := none
  deriving DecidableEq, Repr

/-- Job.done property (sql.py lines 128-134): membership of the state in the
set {COMPLETED, CANCELED, FAILED}. -/
def Job.done (j : Job) : Bool :=
  [JobState.COMPLETED, JobState.CANCELED, JobState.FAILED].contains j.job_state

/-- Job.succeeded property (sql.py lines 136-138). -/
def Job.succeeded (j : Job) : Bool :=
  j.job_state == JobState.COMPLETED

/-- ResultSchemaType model of sql.py (lines 141-142). -/
structure ResultSchemaType where
  name : String
  deriving DecidableEq, Repr

/-- ResultSchema model of sql.py (lines 145-147). -/
structure ResultSchema where
  name : String
  type : ResultSchemaType
  deriving DecidableEq, Repr

/-- Python dict rows mapping column name to value, modelled as an
insertion-ordered association list over an arbitrary value type V. -/
abbrev Row (V : Type) := List (String × V)

/-- JobResults model of sql.py (lines 150-153): one result page. -/
structure JobResults (V : Type) where
  row_count : Nat
  result_schema : Option (List ResultSchema)
  rows : List (Row V)
  deriving DecidableEq, Repr

/-- Python range(start, stop, step) for a non-negative step: the offsets
start, start+step, ... strictly below stop (empty when step = 0, where Python
would raise). -/
def pyRange (start stop step : Nat) : List Nat :=
  if _h : start < stop ∧ 0 < step then
    start :: pyRange (start + step) stop step
  else
    []
  termination_by stop - start
  decreasing_by omega

/-- Tagged results in completion order: the schedule lists task indices in the
order the concurrently running tasks finish, and each finished task delivers
its result tagged with its originating index. -/
def arrivals {α : Type} (tasks : List α) (sched : List Nat) : List (Nat × α) :=
  sched.filterMap fun i => tasks[i]?.map fun r => (i, r)

/-- Reassembly by originating index: slot i of the output takes the first
arrival tagged i, so the output order is the submission order. -/
def reassemble {α : Type} (n : Nat) (arr : List (Nat × α)) : List α :=
  (List.range n).filterMap fun i => (arr.find? fun p => p.1 == i).map Prod.snd

/-- Modelled from the spec: `run_in_parallel` of dremioai/api/util.py is not
under src/.  Per the spec, page fetches are "unordered in flight but
deterministically reassembled by offset" and the engine waits for all to
complete; so the model runs all tasks, collects their results in an arbitrary
completion order given by a schedule of task indices, and reassembles them in
submission order. -/
def run_in_parallel {α : Type} (tasks : List α) (sched : List Nat) : List α :=
  reassemble tasks.length (arrivals tasks sched)

/-- Python truthiness of an Optional[str]: None and the empty string are
falsy, any other string truthy. -/
def truthyStr : Option String → Bool
  | none => false
  | some s => !(s == "")

/-- Python str() of an Optional[str] as interpolated by an f-string: None
renders as the four-character string "None". -/
def pyStr : Option String → String
  | none => "None"
  | some s => s

/-- The emsg expression of get_results (sql.py lines 199-207): the error
message if truthy, else the cancellation reason when the state is CANCELED,
else the literal "Unknown error". -/
def resolve_emsg (j : Job) : Option String :=
  if truthyStr j.error_message then j.error_message
  else if j.job_state == JobState.CANCELED then j.cancellation_reason
  else some "Unknown error"

/-- The RuntimeError message raised by get_results (sql.py line 208). -/
def failure_message (jid : String) (j : Job) : String :=
  "Job " ++ jid ++ " failed: " ++ pyStr (resolve_emsg j)

/-- DataFrame output modelled as the record of the arguments pandas receives
(sql.py lines 224-231): the concatenated row dicts, the column names taken
from the first page's schema, and the columns coerced by to_datetime because
their declared type is TIMESTAMP. -/
structure DataFrame (V : Type) where
  data : List (Row V)
  columns : List String
  tsCoerced : List String
  deriving DecidableEq, Repr

/-- Output of get_results: a DataFrame when use_df, else the
JobResultsWrapper list of pages. -/
inductive GetResultsOutput (V : Type) where
  | df (d : DataFrame V)
  | rs (pages : List (JobResults V))
  deriving DecidableEq, Repr

/-- The page-fetch portion of get_results (sql.py lines 198-233), entered once
the polling loop (lines 193-196) has delivered a terminal Job snapshot.  The
network is abstracted by the oracle `fetch off limit` giving the page at that
offset (sql.py lines 165-175 build exactly the request (offset, limit)); the
completion order of the concurrent fetches is abstracted by `sched`.  A
non-succeeded job raises RuntimeError with the resolved message; a zero
row_count short-circuits to an empty result; a None row_count would raise
TypeError in `min(500, None)`; otherwise one fetch is issued per offset of
range(0, row_count, limit) with limit = min(500, row_count), the pages are
reassembled in offset order, and either returned as the wrapper or flattened
into a DataFrame using the first page's schema. -/
def get_results {V : Type} (jid : String) (job : Job) (use_df : Bool)
    (fetch : Nat → Nat → JobResults V) (sched : List Nat) :
    Except String (GetResultsOutput V) :=
  if job.succeeded = false then
    .error (failure_message jid job)
  else if job.row_count == some 0 then
    .ok (if use_df then .df ⟨[], [], []⟩ else .rs [])
  else
    match job.row_count with
    | none => .error "TypeError: unsupported operand NoneType"
    | some rc =>
      let limit := min 500 rc
      let tasks := (pyRange 0 rc limit).map fun off => fetch off limit
      let jr := run_in_parallel tasks sched
      if use_df then
        match jr.head? with
        | none => .error "IndexError: list index out of range"
        | some first =>
          match first.result_schema with
          | none => .error "TypeError: NoneType is not iterable"
          | some rs =>
            .ok (.df ⟨(jr.map (·.rows)).flatten,
                      rs.map (·.name),
                      (rs.filter fun r => r.type.name == "TIMESTAMP").map (·.name)⟩)
      else
        .ok (.rs jr)

/-- The (offset, limit) pairs of the page-fetch requests get_results issues
for a given terminal Job: none on the failure or empty fast paths, else one
per offset of range(0, row_count, limit) with limit = min(500, row_count). -/
def issued_requests (job : Job) : List (Nat × Nat) :=
  if job.succeeded = false then []
  else if job.row_count == some 0 then []
  else
    match job.row_count with
    | none => []
    | some rc => (pyRange 0 rc (min 500 rc)).map fun off => (off, min 500 rc)

/-- ParseResult of urllib.parse, by component, as manipulated by
convert_to_adbc_uri: scheme, netloc, path, params, query, fragment. -/
structure ParseResult where
  scheme : String
  netloc : String
  path : String
  params : String
  query : String
  fragment : String
  deriving DecidableEq, Repr

/-- convert_to_adbc_uri (sql.py lines 236-240) on the parsed URI: when is_dc
holds and the netloc starts with "api.", that lead is replaced by "data.";
the scheme is always replaced by grpc+tls; nothing else is touched. -/
def convert_to_adbc_uri (u : ParseResult) (is_dc : Bool) : ParseResult :=
  let u' := if is_dc && u.netloc.startsWith "api." then
    { u with netloc := "data." ++ u.netloc.drop 4 }
  else
    u
  { u' with scheme := "grpc+tls" }

/-- Python dict assignment d[k] = v on an insertion-ordered dict: an existing
key keeps its position and takes the new value, a new key is appended. -/
def dictSet {V : Type} (d : Row V) (k : String) (v : V) : Row V :=
  if d.any (fun p => p.1 == k) then
    d.map fun p => if p.1 == k then (k, v) else p
  else
    d ++ [(k, v)]

/-- Python dict built from a sequence of key-value pairs in order. -/
def dictOfPairs {V : Type} (ps : List (String × V)) : Row V :=
  ps.foldl (fun d p => dictSet d p.1 p.2) []

/-- convert_row inside convert_to_job_results (sql.py lines 300-301): the
dict whose entries pair rs[ix].name with row[ix] for each position of the
tuple; a row longer than the schema indexes past rs and raises IndexError. -/
def convert_row {V : Type} (rs : List ResultSchema) (row : List V) :
    Option (Row V) :=
  if rs.length < row.length then none
  else some (dictOfPairs (List.zip (rs.map (·.name)) row))

/-- convert_to_job_results (sql.py lines 294-304): the cursor descriptors
(name, str of declared type; the declared type is modelled as the string str
produces) become the schema in order, each fetched tuple becomes a dict row,
and everything is wrapped as a single synthetic page whose rowCount is the
number of rows. -/
def convert_to_job_results {V : Type} (schema : List (String × String))
    (rows : List (List V)) : Option (List (JobResults V)) :=
  let rs := schema.map fun info => ResultSchema.mk info.1 ⟨info.2⟩
  match rows.mapM (convert_row rs) with
  | none => none
  | some rsrows => some [⟨rows.length, some rs, rsrows⟩]

/-- Events observable in the scoped-resource model of the direct-protocol
path: closing the connection and closing the cursor. -/
inductive ResourceEvent where
  | closeConn
  | closeCursor
  deriving DecidableEq, Repr

/-- adbc_connect (sql.py lines 261-280): conn starts as None; on successful
acquisition the body runs and the finally block closes the connection on both
normal and exceptional exit; on acquisition failure the finally block sees
that conn is None and closes nothing, and the failure propagates unchanged.
`acquire` is the dbapi.connect call as an oracle; `body` is the code of the
async-with block, returning its outcome and the resource events it emits. -/
def adbc_connect_run {Conn A : Type} (acquire : Except String Conn)
    (body : Conn → Except String A × List ResourceEvent) :
    Except String A × List ResourceEvent :=
  match acquire with
  | .error e => (.error e, [])
  | .ok conn =>
    let r := body conn
    (r.1, r.2 ++ [ResourceEvent.closeConn])

/-- adbc_cursor (sql.py lines 283-291): the same try/finally discipline for
the cursor acquired from a connection. -/
def adbc_cursor_run {Conn Cursor A : Type} (conn : Conn)
    (acquireCursor : Conn → Except String Cursor)
    (body : Cursor → Except String A × List ResourceEvent) :
    Except String A × List ResourceEvent :=
  match acquireCursor conn with
  | .error e => (.error e, [])
  | .ok cur =>
    let r := body cur
    (r.1, r.2 ++ [ResourceEvent.closeCursor])

/-- ArcticSourceType enum of sql.py (lines 37-40). -/
inductive ArcticSourceType where
  | BRANCH
  | TAG
  | COMMIT
  deriving DecidableEq, Repr

/-- ArcticSource model of sql.py (lines 43-45). -/
structure ArcticSource where
  type : ArcticSourceType
  value : String
  deriving DecidableEq, Repr

/-- Query model of sql.py (lines 48-51); context and references default to
None, and the references dict is an association list. -/
structure Query where
  sql : String
  context : Option (List String) := none
  references : Option (List (String × ArcticSource)) := none
  deriving DecidableEq, Repr

/-- The Union[Query, str] argument accepted by run_query and run_adbc_query. -/
inductive QueryArg where
  | str (s : String)
  | query (q : Query)
  deriving DecidableEq, Repr

/-- The isinstance wrapping at sql.py lines 310-311 and 336-337: a bare
string s becomes Query(sql=s), whose context and references default to None;
a Query passes through unchanged. -/
def wrapQuery : QueryArg → Query
  | .str s => { sql := s }
  | .query q => q

/-- run_adbc_query (sql.py lines 307-326) with the direct-protocol execution
abstracted as an oracle of the wrapped Query and the use_df flag: the
function first wraps a bare string, and everything that follows (URI
rewriting, connect, execute, fetch, conversion) depends only on the resulting
Query and the flag. -/
def run_adbc_query {R : Type} (adbcExec : Query → Bool → R)
    (query : QueryArg) (use_df : Bool) : R :=
  adbcExec (wrapQuery query) use_df

/-- run_query (sql.py lines 329-344): dispatch to run_adbc_query when
use_adbc, else wrap a bare string and run the REST submit-and-poll path,
abstracted as an oracle of the wrapped Query and use_df. -/
def run_query {R : Type} (adbcExec restExec : Query → Bool → R)
    (query : QueryArg) (use_df use_adbc : Bool) : R :=
  if use_adbc then run_adbc_query adbcExec query use_df
  else restExec (wrapQuery query) use_df

/-- A JSON field as pydantic sees it: missing from the payload, an explicit
null, or a value. -/
inductive JsonField (α : Type) where
  | absent
  | null
  | val (a : α)
  deriving DecidableEq, Repr

/-- Deserialization of the Optional[int] rowCount field with default 0
(sql.py line 112): an absent rowCount takes the default 0, an explicit null
becomes None, a number is kept. -/
def parse_row_count : JsonField Nat → Option Nat
  | .absent => some 0
  | .null => none
  | .val v => some v

/-- Deserialization of an Optional field whose default is None (errorMessage,
cancellationReason; sql.py lines 113 and 126). -/
def parse_opt {α : Type} : JsonField α → Option α
  | .absent => none
  | .null => none
  | .val a => some a

/-- The wire snapshot of a Job, restricted to the fields that drive
get_results. -/
structure JobSnapshot where
  jobState : JobState
  rowCount : JsonField Nat := .absent
  errorMessage : JsonField String := .absent
  cancellationReason : JsonField String := .absent
  deriving DecidableEq, Repr

/-- Pydantic validation of a Job snapshot into the Job model, following the
field aliases and defaults of sql.py lines 110-126, for the fields that drive
get_results. -/
def Job.fromSnapshot (s : JobSnapshot) : Job :=
  { job_state := s.jobState
    row_count := parse_row_count s.rowCount
    error_message := parse_opt s.errorMessage
    cancellation_reason := parse_opt s.cancellationReason }

/-- Fallback part of the amended C2 tie-break, stated from the claim's words
as corrected: when the state is CANCELED the cancellation reason is used even
when unpopulated, an absent reason rendering as the string "None"; any other
non-success state uses the generic "Unknown error". -/
def amended_fallback (j : Job) : String :=
  if j.job_state = JobState.CANCELED then
    match j.cancellation_reason with
    | some r => r
    | none => "None"
  else "Unknown error"

/-- Amended C2 message resolution, stated from the claim's words as
corrected: the error message when populated with a non-empty string,
otherwise the fallback above. -/
def amended_failure_text (j : Job) : String :=
  match j.error_message with
  | some s => if s = "" then amended_fallback j else s
  | none => amended_fallback j

/-- Length of a Python range with positive step: the ceiling of the distance
divided by the step. -/
theorem pyRange_length (start stop step : Nat) (hs : 0 < step) :
    (pyRange start stop step).length = (stop - start + step - 1) / step := by
  induction start, stop, step using pyRange.induct with
  | case1 start stop step h ih =>
    rw [pyRange, dif_pos h, List.length_cons, ih hs]
    rcases Nat.lt_or_ge step (stop - start) with hc | hc
    · have e1 : stop - (start + step) + step - 1 = stop - start - 1 := by omega
      have e2 : stop - start + step - 1 = (stop - start - 1) + step := by omega
      rw [e1, e2, Nat.add_div_right _ hs]
    · have e1 : stop - (start + step) = 0 := by omega
      have e2 : (0 + step - 1) / step = 0 := Nat.div_eq_of_lt (by omega)
      have e3 : stop - start + step - 1 = (stop - start - 1) + step := by omega
      rw [e1, e2, e3, Nat.add_div_right _ hs, Nat.div_eq_of_lt (by omega)]
  | case2 start stop step h =>
    rw [pyRange, dif_neg h]
    rcases Nat.lt_or_ge start stop with hc | hc
    · omega
    · have e1 : stop - start = 0 := by omega
      have e2 : 0 + step - 1 = step - 1 := by omega
      rw [e1, e2]
      exact (Nat.div_eq_of_lt (by omega)).symm

/-- Concatenating the page slices take/drop produces over the offsets of a
Python range recovers the suffix of the list from the first offset on. -/
theorem pyRange_flatten_take_drop {α : Type} (step : Nat) (hs : 0 < step)
    (l : List α) :
    ∀ start stop, l.length ≤ stop →
      ((pyRange start stop step).map
        (fun off => (l.drop off).take step)).flatten = l.drop start := by
  intro start stop
  induction start, stop, step using pyRange.induct with
  | case1 start stop step h ih =>
    intro hlen
    rw [pyRange, dif_pos h, List.map_cons, List.flatten_cons, ih hs hlen]
    rw [← List.drop_drop, List.take_append_drop]
  | case2 start stop step h =>
    intro hlen
    rw [pyRange, dif_neg h, List.map_nil, List.flatten_nil]
    exact (List.drop_eq_nil_of_le (by omega)).symm

/-- Element characterization of a Python range with positive step. -/
theorem pyRange_getElem? (start stop step : Nat) (hs : 0 < step) :
    ∀ i, (pyRange start stop step)[i]? =
      if start + i * step < stop then some (start + i * step) else none := by
  induction start, stop, step using pyRange.induct with
  | case1 start stop step h ih =>
    intro i
    rw [pyRange, dif_pos h]
    match i with
    | 0 => simp [h.1]
    | i + 1 =>
      rw [List.getElem?_cons_succ, ih hs i]
      have e : start + step + i * step = start + (i + 1) * step := by
        rw [Nat.succ_mul]; omega
      rw [e]
  | case2 start stop step h =>
    intro i
    rw [pyRange, dif_neg h]
    have hn : ¬ (start + i * step < stop) := by
      rcases Nat.lt_or_ge start stop with hc | hc
      · exact absurd ⟨hc, hs⟩ h
      · omega
    rw [if_neg hn]
    simp

/-- Multiples of the step below the bound correspond to indices below the
ceiling quotient. -/
theorem mul_lt_iff_lt_ceil (i stop step : Nat) (hs : 0 < step) :
    i * step < stop ↔ i < (stop + step - 1) / step := by
  rw [Nat.lt_iff_add_one_le, Nat.lt_iff_add_one_le, Nat.le_div_iff_mul_le hs,
    add_one_mul]
  generalize i * step = x
  omega

/-- A Python range from 0 with positive step is the list of the first
ceil(stop / step) multiples of the step, in order. -/
theorem pyRange_zero (stop step : Nat) (hs : 0 < step) :
    pyRange 0 stop step = (List.range ((stop + step - 1) / step)).map (· * step) := by
  apply List.ext_getElem?
  intro i
  rw [pyRange_getElem? 0 stop step hs i, List.getElem?_map]
  by_cases hi : i < (stop + step - 1) / step
  · rw [List.getElem?_range hi, if_pos]
    · simp
    · have := (mul_lt_iff_lt_ceil i stop step hs).2 hi
      omega
  · rw [List.getElem?_eq_none (by simpa using hi), if_neg]
    · simp
    · exact fun hc => hi ((mul_lt_iff_lt_ceil i stop step hs).1 (by omega))

/-- Every arrival carries the result of the task at its tag. -/
theorem mem_arrivals_sound {α : Type} {tasks : List α} {sched : List Nat}
    {p : Nat × α} (hp : p ∈ arrivals tasks sched) : tasks[p.1]? = some p.2 := by
  unfold arrivals at hp
  rw [List.mem_filterMap] at hp
  obtain ⟨i, _, he⟩ := hp
  cases hg : tasks[i]? with
  | none => rw [hg] at he; simp at he
  | some a =>
    rw [hg] at he
    simp only [Option.map_some'] at he
    cases he
    simpa using hg

/-- Looking up slot i among the arrivals of a schedule containing i yields
the result of task i, whatever the completion order. -/
theorem find?_arrivals_eq {α : Type} (tasks : List α) (sched : List Nat)
    (i : Nat) (a : α) (hi : i ∈ sched) (ha : tasks[i]? = some a) :
    (arrivals tasks sched).find? (fun p => p.1 == i) = some (i, a) := by
  have hmem : (i, a) ∈ arrivals tasks sched := by
    rw [arrivals, List.mem_filterMap]
    exact ⟨i, hi, by rw [ha]; rfl⟩
  have hsome : ((arrivals tasks sched).find? (fun p => p.1 == i)).isSome := by
    rw [List.find?_isSome]
    exact ⟨(i, a), hmem, by simp⟩
  obtain ⟨q, hq⟩ := Option.isSome_iff_exists.1 hsome
  have hq1 : q.1 = i := by simpa using List.find?_some hq
  have hq2 : tasks[q.1]? = some q.2 :=
    mem_arrivals_sound (List.mem_of_find?_eq_some hq)
  rw [hq1, ha] at hq2
  rw [hq]
  have hqe : q = (i, a) := by
    cases q
    simp only [Prod.mk.injEq]
    exact ⟨hq1, by simpa using hq2.symm⟩
  rw [hqe]

/-- A filterMap whose function is total on the list is a map. -/
theorem filterMap_eq_map_of {ι β : Type} {l : List ι} {F : ι → Option β}
    {G : ι → β} (h : ∀ i ∈ l, F i = some (G i)) : l.filterMap F = l.map G := by
  induction l with
  | nil => rfl
  | cons x xs ih =>
    rw [List.filterMap_cons, h x (by simp), List.map_cons,
      ih fun i hi => h i (by simp [hi])]

/-- Reading every position of a list back in order reproduces the list. -/
theorem map_getD_range {α : Type} (d : α) :
    ∀ l : List α, (List.range l.length).map (fun i => l.getD i d) = l
  | [] => rfl
  | a :: t => by
    rw [List.length_cons, List.range_succ_eq_map, List.map_cons, List.map_map]
    have h1 : ((fun i => (a :: t).getD i d) ∘ Nat.succ) = fun i => t.getD i d := by
      funext i
      simp [List.getD]
    rw [h1, map_getD_range d t]
    simp [List.getD]

/-- Whenever the completion schedule is a permutation of the task indices,
the parallel gather returns exactly the task results in submission order. -/
theorem run_in_parallel_perm {α : Type} (tasks : List α) (sched : List Nat)
    (hperm : sched.Perm (List.range tasks.length)) :
    run_in_parallel tasks sched = tasks := by
  cases tasks with
  | nil => simp [run_in_parallel, reassemble]
  | cons t ts =>
    rw [run_in_parallel, reassemble,
      filterMap_eq_map_of (G := fun i => (t :: ts).getD i t),
      map_getD_range t (t :: ts)]
    intro i hi
    have hilt : i < (t :: ts).length := List.mem_range.1 hi
    have hmem : i ∈ sched := hperm.mem_iff.2 hi
    have hsome : (t :: ts)[i]? = some ((t :: ts).getD i t) := by
      rw [List.getElem?_eq_getElem hilt, List.getD_eq_getElem _ _ hilt]
    rw [find?_arrivals_eq (t :: ts) sched i ((t :: ts).getD i t) hmem hsome]
    rfl

/-- C3: for every Job, `done` holds iff the state is one of COMPLETED,
CANCELED, FAILED; `succeeded` holds iff the state is COMPLETED; and a Job is
never `succeeded` while not `done`. -/
theorem done_succeeded_characterization (j : Job) :
    (j.done = true ↔
      (j.job_state = JobState.COMPLETED ∨ j.job_state = JobState.CANCELED ∨
        j.job_state = JobState.FAILED))
    ∧ (j.succeeded = true ↔ j.job_state = JobState.COMPLETED)
    ∧ (j.succeeded = true → j.done = true) := by
  cases h : j.job_state <;>
    simp [Job.done, Job.succeeded, h, List.contains]

/-- Closed instance of the characterization at a concrete CANCELED job. -/
theorem done_succeeded_characterization_witness :
    (Job.done { job_state := JobState.CANCELED } = true ↔
      ({ job_state := JobState.CANCELED : Job }.job_state = JobState.COMPLETED ∨
        { job_state := JobState.CANCELED : Job }.job_state = JobState.CANCELED ∨
        { job_state := JobState.CANCELED : Job }.job_state = JobState.FAILED))
    ∧ (Job.succeeded { job_state := JobState.CANCELED } = true ↔
        { job_state := JobState.CANCELED : Job }.job_state = JobState.COMPLETED)
    ∧ (Job.succeeded { job_state := JobState.CANCELED } = true →
        Job.done { job_state := JobState.CANCELED } = true) :=
  done_succeeded_characterization { job_state := JobState.CANCELED }

/-- The message the code resolves coincides with the amended tie-break text
for every Job. -/
theorem pyStr_resolve_emsg_eq_amended (j : Job) :
    pyStr (resolve_emsg j) = amended_failure_text j := by
  rw [resolve_emsg, amended_failure_text, amended_fallback]
  cases hm : j.error_message with
  | none =>
    rw [truthyStr]
    by_cases hc : j.job_state = JobState.CANCELED
    · simp only [hc, if_neg Bool.false_ne_true]
      cases j.cancellation_reason <;> simp [pyStr]
    · simp only [if_neg Bool.false_ne_true]
      have : (j.job_state == JobState.CANCELED) = false := by
        simpa using hc
      simp [this, hc, pyStr]
  | some s =>
    rw [truthyStr]
    by_cases hse : s = ""
    · subst hse
      by_cases hc : j.job_state = JobState.CANCELED
      · simp only [hc]
        cases j.cancellation_reason <;> simp [pyStr]
      · have : (j.job_state == JobState.CANCELED) = false := by
          simpa using hc
        simp [this, hc, pyStr]
    · have ht : (!(s == "")) = true := by simpa using hse
      simp [ht, pyStr, hse]

/-- C2 counterexample: a CANCELED job with neither error_message nor
cancellation_reason populated does not surface the generic fallback; the
operation's message renders the absent reason as "None". -/
theorem canceled_unpopulated_not_generic :
    get_results (V := Unit) "123" { job_state := JobState.CANCELED } false
        (fun _ _ => ⟨0, none, []⟩) [] =
      .error "Job 123 failed: None"
    ∧ ("Job 123 failed: None" ≠ "Job 123 failed: Unknown error") := by
  constructor
  · rfl
  · decide

/-- C2 amended: whenever the job's terminal state is not COMPLETED, the
operation fails with the message resolved by the tie-break: error_message if
populated non-empty; otherwise, if the state is CANCELED, the
cancellation_reason with an absent reason rendering as "None"; otherwise the
generic fallback.  In particular a FAILED job with error_message
"syntax error" surfaces exactly "syntax error", and a CANCELED job with
neither message populated surfaces "None". -/
theorem failure_tiebreak_amended :
    (∀ {V : Type} (jid : String) (j : Job) (use_df : Bool)
      (fetch : Nat → Nat → JobResults V) (sched : List Nat),
      j.succeeded = false →
      get_results jid j use_df fetch sched =
        .error ("Job " ++ jid ++ " failed: " ++ amended_failure_text j))
    ∧ amended_failure_text
        { job_state := JobState.FAILED, error_message := some "syntax error" } =
      "syntax error"
    ∧ amended_failure_text { job_state := JobState.CANCELED } = "None" := by
  refine ⟨?_, rfl, rfl⟩
  intro V jid j use_df fetch sched h
  rw [get_results, if_pos h, failure_message, pyStr_resolve_emsg_eq_amended]

/-- Closed instance of the amended C2 tie-break at a FAILED job carrying
"syntax error". -/
theorem failure_tiebreak_amended_witness :
    get_results (V := Unit) "42"
        { job_state := JobState.FAILED, error_message := some "syntax error" }
        false (fun _ _ => ⟨0, none, []⟩) [] =
      .error ("Job " ++ "42" ++ " failed: " ++ amended_failure_text
        { job_state := JobState.FAILED, error_message := some "syntax error" }) :=
  failure_tiebreak_amended.1 "42"
    { job_state := JobState.FAILED, error_message := some "syntax error" }
    false (fun _ _ => ⟨0, none, []⟩) [] rfl

/-- C4: for every successful job with row_count 0, get_results returns the
empty wrapper (or empty table in tabular mode) and issues zero page-fetch
requests; the result does not depend on the fetch oracle or on any
completion schedule. -/
theorem empty_fastpath (jid : String) (job : Job) (use_df : Bool) {V : Type}
    (f g : Nat → Nat → JobResults V) (s1 s2 : List Nat)
    (hsucc : job.succeeded = true) (h0 : job.row_count = some 0) :
    get_results jid job use_df f s1 =
      .ok (if use_df then .df ⟨[], [], []⟩ else .rs [])
    ∧ issued_requests job = []
    ∧ get_results jid job use_df f s1 = get_results jid job use_df g s2 := by
  have hs : (job.succeeded = false) = False := by simp [hsucc]
  have hr : (job.row_count == some 0) = true := by simp [h0]
  refine ⟨?_, ?_, ?_⟩ <;> simp [get_results, issued_requests, hs, hr]

/-- Closed instance of the empty fast path at a COMPLETED job with
row_count 0. -/
theorem empty_fastpath_witness :
    get_results (V := Unit) "7" { job_state := JobState.COMPLETED } false
        (fun _ _ => ⟨1, none, [[]]⟩) [0] =
      .ok (if false then .df ⟨[], [], []⟩ else .rs [])
    ∧ issued_requests { job_state := JobState.COMPLETED } = []
    ∧ get_results (V := Unit) "7" { job_state := JobState.COMPLETED } false
        (fun _ _ => ⟨1, none, [[]]⟩) [0] =
      get_results (V := Unit) "7" { job_state := JobState.COMPLETED } false
        (fun _ _ => ⟨2, none, [[], []]⟩) [1, 0] :=
  empty_fastpath "7" { job_state := JobState.COMPLETED } false
    (fun _ _ => ⟨1, none, [[]]⟩) (fun _ _ => ⟨2, none, [[], []]⟩)
    [0] [1, 0] rfl rfl

/-- C10: a snapshot whose rowCount field is absent deserializes to
row_count 0, so a COMPLETED snapshot without rowCount takes the empty-result
fast path: empty result, zero page fetches, no dependence on the fetch
oracle or the schedule. -/
theorem absent_rowcount_default (jid : String) (snap : JobSnapshot)
    (use_df : Bool) {V : Type} (f g : Nat → Nat → JobResults V)
    (s1 s2 : List Nat) (habs : snap.rowCount = JsonField.absent) :
    (Job.fromSnapshot snap).row_count = some 0
    ∧ (snap.jobState = JobState.COMPLETED →
        get_results jid (Job.fromSnapshot snap) use_df f s1 =
          .ok (if use_df then .df ⟨[], [], []⟩ else .rs [])
        ∧ issued_requests (Job.fromSnapshot snap) = []
        ∧ get_results jid (Job.fromSnapshot snap) use_df f s1 =
            get_results jid (Job.fromSnapshot snap) use_df g s2) := by
  have hrc : (Job.fromSnapshot snap).row_count = some 0 := by
    simp [Job.fromSnapshot, habs, parse_row_count]
  refine ⟨hrc, fun hst => ?_⟩
  have hsucc : (Job.fromSnapshot snap).succeeded = true := by
    simp [Job.fromSnapshot, Job.succeeded, hst]
  exact empty_fastpath jid (Job.fromSnapshot snap) use_df f g s1 s2 hsucc hrc

/-- Closed instance of the absent-rowCount default at a COMPLETED snapshot
carrying only jobState. -/
theorem absent_rowcount_default_witness :
    (Job.fromSnapshot { jobState := JobState.COMPLETED }).row_count = some 0
    ∧ ({ jobState := JobState.COMPLETED : JobSnapshot }.jobState =
          JobState.COMPLETED →
        get_results (V := Unit) "9"
            (Job.fromSnapshot { jobState := JobState.COMPLETED }) false
            (fun _ _ => ⟨1, none, [[]]⟩) [] =
          .ok (if false then .df ⟨[], [], []⟩ else .rs [])
        ∧ issued_requests
            (Job.fromSnapshot { jobState := JobState.COMPLETED }) = []
        ∧ get_results (V := Unit) "9"
              (Job.fromSnapshot { jobState := JobState.COMPLETED }) false
              (fun _ _ => ⟨1, none, [[]]⟩) [] =
            get_results (V := Unit) "9"
              (Job.fromSnapshot { jobState := JobState.COMPLETED }) false
              (fun _ _ => ⟨0, none, []⟩) [2]) :=
  absent_rowcount_default "9" { jobState := JobState.COMPLETED } false
    (fun _ _ => ⟨1, none, [[]]⟩) (fun _ _ => ⟨0, none, []⟩) [] [2] rfl

/-- C8: the connection-URI conversion always replaces the scheme with
grpc+tls, rewrites the netloc lead from api. to data. exactly when the
data-plane flag is set and the netloc begins with api., and leaves every
other URI component unchanged. -/
theorem adbc_uri_rewrite (u : ParseResult) (is_dc : Bool) :
    (convert_to_adbc_uri u is_dc).scheme = "grpc+tls"
    ∧ (is_dc = true → u.netloc.startsWith "api." = true →
        (convert_to_adbc_uri u is_dc).netloc = "data." ++ u.netloc.drop 4)
    ∧ (is_dc = false ∨ u.netloc.startsWith "api." = false →
        (convert_to_adbc_uri u is_dc).netloc = u.netloc)
    ∧ (convert_to_adbc_uri u is_dc).path = u.path
    ∧ (convert_to_adbc_uri u is_dc).params = u.params
    ∧ (convert_to_adbc_uri u is_dc).query = u.query
    ∧ (convert_to_adbc_uri u is_dc).fragment = u.fragment := by
  cases is_dc <;> cases hs : u.netloc.startsWith "api." <;>
    simp [convert_to_adbc_uri, hs]

/-- Closed instance of the URI rewrite at a data-plane api. host. -/
theorem adbc_uri_rewrite_witness :
    (convert_to_adbc_uri
        ⟨"https", "api.dremio.cloud", "/", "", "", ""⟩ true).scheme = "grpc+tls"
    ∧ (true = true →
        ("api.dremio.cloud" : String).startsWith "api." = true →
        (convert_to_adbc_uri
            ⟨"https", "api.dremio.cloud", "/", "", "", ""⟩ true).netloc =
          "data." ++ ("api.dremio.cloud" : String).drop 4)
    ∧ (true = false ∨ ("api.dremio.cloud" : String).startsWith "api." = false →
        (convert_to_adbc_uri
            ⟨"https", "api.dremio.cloud", "/", "", "", ""⟩ true).netloc =
          "api.dremio.cloud")
    ∧ (convert_to_adbc_uri
        ⟨"https", "api.dremio.cloud", "/", "", "", ""⟩ true).path = "/"
    ∧ (convert_to_adbc_uri
        ⟨"https", "api.dremio.cloud", "/", "", "", ""⟩ true).params = ""
    ∧ (convert_to_adbc_uri
        ⟨"https", "api.dremio.cloud", "/", "", "", ""⟩ true).query = ""
    ∧ (convert_to_adbc_uri
        ⟨"https", "api.dremio.cloud", "/", "", "", ""⟩ true).fragment = "" :=
  adbc_uri_rewrite ⟨"https", "api.dremio.cloud", "/", "", "", ""⟩ true

/-- C9: calling run_query with a bare SQL string behaves identically, for
every combination of the use_df and use_adbc flags and both execution paths,
to calling it with the Query wrapping that string; the wrapped Query has
absent context and references. -/
theorem run_query_string_wrapping {R : Type} (adbcExec restExec : Query → Bool → R)
    (s : String) (use_df use_adbc : Bool) :
    run_query adbcExec restExec (QueryArg.str s) use_df use_adbc =
      run_query adbcExec restExec (QueryArg.query { sql := s }) use_df use_adbc
    ∧ wrapQuery (QueryArg.str s) =
        { sql := s, context := none, references := none }
    ∧ run_adbc_query adbcExec (QueryArg.str s) use_df =
        run_adbc_query adbcExec (QueryArg.query { sql := s }) use_df :=
  ⟨rfl, rfl, rfl⟩

/-- C7: on the direct-protocol path, a connection that was acquired is closed
on every exit of its scope, normal and exceptional alike, with the body's
outcome propagated unchanged; a connection whose acquisition failed is never
closed and the failure propagates as-is; the cursor obeys the same discipline
inside the connection's scope, and in the nested composition the cursor close
precedes the connection close. -/
theorem scoped_resource_release {Conn Cursor A : Type}
    (acquire : Except String Conn) (acquireCursor : Conn → Except String Cursor)
    (body : Conn → Except String A × List ResourceEvent)
    (bodyc : Cursor → Except String A × List ResourceEvent) :
    (∀ e, acquire = .error e → adbc_connect_run acquire body = (.error e, []))
    ∧ (∀ c, acquire = .ok c →
        adbc_connect_run acquire body =
          ((body c).1, (body c).2 ++ [ResourceEvent.closeConn]))
    ∧ (∀ c e, acquireCursor c = .error e →
        adbc_cursor_run c acquireCursor bodyc = (.error e, []))
    ∧ (∀ c cur, acquireCursor c = .ok cur →
        adbc_cursor_run c acquireCursor bodyc =
          ((bodyc cur).1, (bodyc cur).2 ++ [ResourceEvent.closeCursor]))
    ∧ (∀ c cur, acquire = .ok c → acquireCursor c = .ok cur →
        adbc_connect_run acquire (fun c' => adbc_cursor_run c' acquireCursor bodyc) =
          ((bodyc cur).1,
            ((bodyc cur).2 ++ [ResourceEvent.closeCursor]) ++
              [ResourceEvent.closeConn])) := by
  refine ⟨?_, ?_, ?_, ?_, ?_⟩
  · intro e he
    rw [adbc_connect_run.eq_def, he]
  · intro c hc
    rw [adbc_connect_run.eq_def, hc]
  · intro c e he
    rw [adbc_cursor_run.eq_def, he]
  · intro c cur hcur
    rw [adbc_cursor_run.eq_def, hcur]
  · intro c cur hc hcur
    rw [adbc_connect_run.eq_def, hc]
    have h1 : adbc_cursor_run c acquireCursor bodyc =
        ((bodyc cur).1, (bodyc cur).2 ++ [ResourceEvent.closeCursor]) := by
      rw [adbc_cursor_run.eq_def, hcur]
    show ((adbc_cursor_run c acquireCursor bodyc).1,
        (adbc_cursor_run c acquireCursor bodyc).2 ++ [ResourceEvent.closeConn]) =
      ((bodyc cur).1,
        (bodyc cur).2 ++ [ResourceEvent.closeCursor] ++ [ResourceEvent.closeConn])
    rw [h1]

/-- Closed instance of the scoped-release discipline with concrete
acquisition outcomes and bodies. -/
theorem scoped_resource_release_witness :
    (∀ e, (Except.ok 1 : Except String Nat) = .error e →
      adbc_connect_run (Except.ok 1)
        (fun c => ((Except.ok (c + 10) : Except String Nat),
          ([] : List ResourceEvent))) = (.error e, []))
    ∧ (∀ c : Nat, (Except.ok 1 : Except String Nat) = .ok c →
        adbc_connect_run (Except.ok 1)
          (fun c' => ((Except.ok (c' + 10) : Except String Nat),
            ([] : List ResourceEvent))) =
          (Except.ok (c + 10), [ResourceEvent.closeConn]))
    ∧ (∀ (c : Nat) (e : String), (Except.ok 2 : Except String Nat) = .error e →
        adbc_cursor_run c (fun _ => (Except.ok 2 : Except String Nat))
          (fun _ => ((Except.error "boom" : Except String Nat),
            ([] : List ResourceEvent))) = (.error e, []))
    ∧ (∀ (c cur : Nat), (Except.ok 2 : Except String Nat) = .ok cur →
        adbc_cursor_run c (fun _ => (Except.ok 2 : Except String Nat))
          (fun _ => ((Except.error "boom" : Except String Nat),
            ([] : List ResourceEvent))) =
          (Except.error "boom", [ResourceEvent.closeCursor]))
    ∧ (∀ (c cur : Nat), (Except.ok 1 : Except String Nat) = .ok c →
        (Except.ok 2 : Except String Nat) = .ok cur →
        adbc_connect_run (Except.ok 1)
          (fun c' => adbc_cursor_run c' (fun _ => (Except.ok 2 : Except String Nat))
            (fun _ => ((Except.error "boom" : Except String Nat),
              ([] : List ResourceEvent)))) =
          (Except.error "boom",
            [ResourceEvent.closeCursor, ResourceEvent.closeConn])) :=
  scoped_resource_release (Except.ok 1) (fun _ => Except.ok 2)
    (fun c => (Except.ok (c + 10), []))
    (fun _ => (Except.error "boom", []))

/-- C1: for a successful job with row_count R bigger than 0 and page size
P = min(500, R), get_results issues exactly ceil(R / P) page-fetch requests,
one per offset in [0, R) stepped by P, each with limit P; and assuming every
page returns its requested rows of the full row sequence, the reassembled row
sequence is the full sequence, of length R. -/
theorem pagination_requests_and_length {V : Type} (jid : String) (R : Nat)
    (l : List (Row V)) (sched : List Nat) (hR : 0 < R) (hl : l.length = R)
    (hsched : sched.Perm (List.range ((R + min 500 R - 1) / min 500 R))) :
    issued_requests { job_state := JobState.COMPLETED, row_count := some R } =
      (List.range ((R + min 500 R - 1) / min 500 R)).map
        (fun k => (k * min 500 R, min 500 R))
    ∧ (issued_requests
        { job_state := JobState.COMPLETED, row_count := some R }).length =
      (R + min 500 R - 1) / min 500 R
    ∧ ∃ pages : List (JobResults V),
        get_results jid { job_state := JobState.COMPLETED, row_count := some R }
          false
          (fun off lim => ⟨min lim (R - off), none, (l.drop off).take lim⟩)
          sched = .ok (.rs pages)
        ∧ pages.length = (R + min 500 R - 1) / min 500 R
        ∧ (pages.map (fun p => p.rows)).flatten = l
        ∧ ((pages.map (fun p => p.rows)).flatten).length = R := by
  have hP : 0 < min 500 R := by omega
  have hR0 : R ≠ 0 := by omega
  have hNn : (pyRange 0 R (min 500 R)).length =
      (R + min 500 R - 1) / min 500 R := by
    rw [pyRange_length 0 R _ hP, Nat.sub_zero]
  have hreq : issued_requests
      { job_state := JobState.COMPLETED, row_count := some R } =
      (pyRange 0 R (min 500 R)).map (fun off => (off, min 500 R)) := by
    simp [issued_requests, Job.succeeded, hR0]
  refine ⟨?_, ?_, ?_⟩
  · rw [hreq, pyRange_zero R _ hP, List.map_map]
    rfl
  · rw [hreq, List.length_map, hNn]
  · refine ⟨(pyRange 0 R (min 500 R)).map
      (fun off => ⟨min (min 500 R) (R - off), none,
        (l.drop off).take (min 500 R)⟩), ?_, ?_, ?_, ?_⟩
    · have hpar : run_in_parallel
          ((pyRange 0 R (min 500 R)).map
            (fun off => (⟨min (min 500 R) (R - off), none,
              (l.drop off).take (min 500 R)⟩ : JobResults V))) sched =
          (pyRange 0 R (min 500 R)).map
            (fun off => ⟨min (min 500 R) (R - off), none,
              (l.drop off).take (min 500 R)⟩) := by
        apply run_in_parallel_perm
        rw [List.length_map, hNn]
        exact hsched
      have hc1 : ¬ (({ job_state := JobState.COMPLETED, row_count := some R } :
          Job).succeeded = false) := by simp [Job.succeeded]
      have hc2 : ¬ ((({ job_state := JobState.COMPLETED, row_count := some R } :
          Job).row_count == some 0) = true) := by simp [hR0]
      unfold get_results
      rw [if_neg hc1, if_neg hc2]
      exact congrArg (fun x => Except.ok (GetResultsOutput.rs x)) hpar
    · rw [List.length_map, hNn]
    · rw [List.map_map]
      have he : ((fun p : JobResults V => p.rows) ∘
          (fun off => (⟨min (min 500 R) (R - off), none,
            (l.drop off).take (min 500 R)⟩ : JobResults V))) =
          fun off => (l.drop off).take (min 500 R) := rfl
      rw [he, pyRange_flatten_take_drop _ hP l 0 R (le_of_eq hl),
        List.drop_zero]
    · rw [List.map_map]
      have he : ((fun p : JobResults V => p.rows) ∘
          (fun off => (⟨min (min 500 R) (R - off), none,
            (l.drop off).take (min 500 R)⟩ : JobResults V))) =
          fun off => (l.drop off).take (min 500 R) := rfl
      rw [he, pyRange_flatten_take_drop _ hP l 0 R (le_of_eq hl),
        List.drop_zero, hl]

/-- Closed instance of the pagination contract at row_count 3 and one page. -/
theorem pagination_requests_and_length_witness :
    issued_requests { job_state := JobState.COMPLETED, row_count := some 3 } =
      (List.range ((3 + min 500 3 - 1) / min 500 3)).map
        (fun k => (k * min 500 3, min 500 3))
    ∧ (issued_requests
        { job_state := JobState.COMPLETED, row_count := some 3 }).length =
      (3 + min 500 3 - 1) / min 500 3
    ∧ ∃ pages : List (JobResults Nat),
        get_results "j1" { job_state := JobState.COMPLETED, row_count := some 3 }
          false
          (fun off lim => ⟨min lim (3 - off), none,
            (([[("a", 1)], [("a", 2)], [("a", 3)]] :
              List (Row Nat)).drop off).take lim⟩)
          [0] = .ok (.rs pages)
        ∧ pages.length = (3 + min 500 3 - 1) / min 500 3
        ∧ (pages.map (fun p => p.rows)).flatten =
            [[("a", 1)], [("a", 2)], [("a", 3)]]
        ∧ ((pages.map (fun p => p.rows)).flatten).length = 3 :=
  pagination_requests_and_length "j1" 3 [[("a", 1)], [("a", 2)], [("a", 3)]] [0]
    (by decide) (by decide) (by decide)

/-- Reduction of get_results on a successful job with positive row_count and
a permutation completion schedule: the output is the sequential page list in
ascending offset order. -/
theorem get_results_pages {V : Type} (jid : String) (R : Nat)
    (fetch : Nat → Nat → JobResults V) (sched : List Nat) (hR : 0 < R)
    (hsched : sched.Perm (List.range ((R + min 500 R - 1) / min 500 R))) :
    get_results jid { job_state := JobState.COMPLETED, row_count := some R }
        false fetch sched =
      .ok (.rs ((pyRange 0 R (min 500 R)).map
        (fun off => fetch off (min 500 R)))) := by
  have hP : 0 < min 500 R := by omega
  have hR0 : R ≠ 0 := by omega
  have hNn : (pyRange 0 R (min 500 R)).length =
      (R + min 500 R - 1) / min 500 R := by
    rw [pyRange_length 0 R _ hP, Nat.sub_zero]
  have hpar : run_in_parallel
      ((pyRange 0 R (min 500 R)).map (fun off => fetch off (min 500 R))) sched =
      (pyRange 0 R (min 500 R)).map (fun off => fetch off (min 500 R)) := by
    apply run_in_parallel_perm
    rw [List.length_map, hNn]
    exact hsched
  have hc1 : ¬ (({ job_state := JobState.COMPLETED, row_count := some R } :
      Job).succeeded = false) := by simp [Job.succeeded]
  have hc2 : ¬ ((({ job_state := JobState.COMPLETED, row_count := some R } :
      Job).row_count == some 0) = true) := by simp [hR0]
  unfold get_results
  rw [if_neg hc1, if_neg hc2]
  exact congrArg (fun x => Except.ok (GetResultsOutput.rs x)) hpar

/-- C5: for every completion order of the concurrently issued page fetches
(any permutation schedule of the page indices), the assembled output lists
the pages in ascending page-offset order, equal to a naive sequential
fetch-and-concatenate in offset order and to the in-order schedule's output:
concurrency never changes the output. -/
theorem completion_order_irrelevant {V : Type} (jid : String) (R : Nat)
    (fetch : Nat → Nat → JobResults V) (sched : List Nat) (hR : 0 < R)
    (hsched : sched.Perm (List.range ((R + min 500 R - 1) / min 500 R))) :
    get_results jid { job_state := JobState.COMPLETED, row_count := some R }
        false fetch sched =
      .ok (.rs ((pyRange 0 R (min 500 R)).map
        (fun off => fetch off (min 500 R))))
    ∧ get_results jid { job_state := JobState.COMPLETED, row_count := some R }
        false fetch sched =
      get_results jid { job_state := JobState.COMPLETED, row_count := some R }
        false fetch (List.range ((R + min 500 R - 1) / min 500 R)) := by
  have h1 := get_results_pages jid R fetch sched hR hsched
  have h2 := get_results_pages jid R fetch
    (List.range ((R + min 500 R - 1) / min 500 R)) hR (List.Perm.refl _)
  exact ⟨h1, h1.trans h2.symm⟩

/-- Closed instance of completion-order independence at row_count 1200 with
the three pages finishing out of order. -/
theorem completion_order_irrelevant_witness :
    get_results "j2" { job_state := JobState.COMPLETED, row_count := some 1200 }
        false (fun off lim => (⟨min lim (1200 - off), none, []⟩ : JobResults Unit))
        [2, 0, 1] =
      .ok (.rs ((pyRange 0 1200 (min 500 1200)).map
        (fun off => (⟨min (min 500 1200) (1200 - off), none, []⟩ :
          JobResults Unit))))
    ∧ get_results "j2" { job_state := JobState.COMPLETED, row_count := some 1200 }
        false (fun off lim => (⟨min lim (1200 - off), none, []⟩ : JobResults Unit))
        [2, 0, 1] =
      get_results "j2" { job_state := JobState.COMPLETED, row_count := some 1200 }
        false (fun off lim => (⟨min lim (1200 - off), none, []⟩ : JobResults Unit))
        (List.range ((1200 + min 500 1200 - 1) / min 500 1200)) :=
  completion_order_irrelevant "j2" 1200
    (fun off lim => (⟨min lim (1200 - off), none, []⟩ : JobResults Unit))
    [2, 0, 1] (by decide) (by decide)

/-- Folding dict assignments over pairs with fresh keys appends them. -/
theorem foldl_dictSet_append {V : Type} :
    ∀ (ps : List (String × V)) (d : Row V),
      ((d ++ ps).map Prod.fst).Nodup →
      ps.foldl (fun acc p => dictSet acc p.1 p.2) d = d ++ ps := by
  intro ps
  induction ps with
  | nil => intro d _; simp
  | cons p ps ih =>
    intro d hnd
    have hfresh : d.any (fun q => q.1 == p.1) = false := by
      rw [List.any_eq_false]
      intro q hq
      have hq1 : q.1 ∈ (d ++ p :: ps).map Prod.fst :=
        List.mem_map_of_mem Prod.fst (List.mem_append_left _ hq)
      have hp1 : p.1 ∈ (d ++ p :: ps).map Prod.fst := by
        refine List.mem_map_of_mem Prod.fst ?_
        exact List.mem_append_right _ (List.mem_cons_self _ _)
      intro hbeq
      have heq : q.1 = p.1 := by simpa using hbeq
      have : ((d.map Prod.fst) ++ (p.1 :: ps.map Prod.fst)).Nodup := by
        simpa using hnd
      rcases List.disjoint_of_nodup_append this (a := q.1)
        (List.mem_map_of_mem Prod.fst hq) with hcontra
      exact hcontra (by simp [heq])
    rw [List.foldl_cons]
    have hset : dictSet d p.1 p.2 = d ++ [p] := by
      rw [dictSet, hfresh]
      simp
    rw [hset]
    have hnd' : (((d ++ [p]) ++ ps).map Prod.fst).Nodup := by
      have : (d ++ [p]) ++ ps = d ++ p :: ps := by simp
      rw [this]
      exact hnd
    rw [ih (d ++ [p]) hnd']
    simp

/-- A dict built from pairs with pairwise distinct keys is those pairs. -/
theorem dictOfPairs_nodup {V : Type} (ps : List (String × V))
    (h : (ps.map Prod.fst).Nodup) : dictOfPairs ps = ps := by
  rw [dictOfPairs, foldl_dictSet_append ps [] (by simpa using h)]
  simp

/-- mapM over Option of a function that succeeds everywhere is a map. -/
theorem mapM_option_eq_map {α β : Type} {f : α → Option β} {g : α → β} :
    ∀ {l : List α}, (∀ a ∈ l, f a = some (g a)) → l.mapM f = some (l.map g) := by
  intro l
  induction l with
  | nil => intro _; rfl
  | cons a t ih =>
    intro h
    rw [List.mapM_cons, h a (List.mem_cons_self _ _),
      ih fun x hx => h x (List.mem_cons_of_mem _ hx)]
    rfl

/-- Looking a column name up in a zipped row finds the value at the name's
position, for pairwise distinct names. -/
theorem lookup_zip {V : Type} :
    ∀ (names : List String) (vals : List V) (j : Nat) (name : String),
      names.Nodup → names[j]? = some name →
      (List.zip names vals).lookup name = vals[j]? := by
  intro names
  induction names with
  | nil => intro vals j name _ hj; simp at hj
  | cons n ns ih =>
    intro vals j name hnd hj
    cases vals with
    | nil => simp
    | cons v vs =>
      cases j with
      | zero =>
        rw [List.getElem?_cons_zero, Option.some.injEq] at hj
        subst hj
        simp [List.lookup]
      | succ j =>
        rw [List.getElem?_cons_succ] at hj
        have hmem : name ∈ ns := by
          obtain ⟨hlt, he⟩ := List.getElem?_eq_some.1 hj
          exact he ▸ List.getElem_mem hlt
        have hne : (name == n) = false := by
          have : name ≠ n := fun he => (List.nodup_cons.1 hnd).1 (he ▸ hmem)
          simpa using this
        rw [List.zip_cons_cons, List.getElem?_cons_succ]
        rw [List.lookup, hne]
        exact ih vs j name (List.nodup_cons.1 hnd).2 hj

/-- C6: converting cursor descriptors and fetched rows yields exactly one
synthetic page whose row_count is the number of fetched rows, whose schema
lists the descriptor names and declared types in descriptor order, and whose
rows map each column name to the value at the matching position — the same
single-page wrapper shape the polling path produces. -/
theorem convert_single_page {V : Type} (schema : List (String × String))
    (rows : List (List V))
    (hlen : ∀ r ∈ rows, r.length = schema.length)
    (hnodup : (schema.map Prod.fst).Nodup) :
    ∃ page : JobResults V,
      convert_to_job_results schema rows = some [page]
      ∧ page.row_count = rows.length
      ∧ page.result_schema =
          some (schema.map fun info => ResultSchema.mk info.1 ⟨info.2⟩)
      ∧ page.rows.length = rows.length
      ∧ ∀ (i : Nat) (r : List V), rows[i]? = some r →
          page.rows[i]? = some (List.zip (schema.map Prod.fst) r)
          ∧ ∀ (j : Nat) (name : String), (schema.map Prod.fst)[j]? = some name →
              (List.zip (schema.map Prod.fst) r).lookup name = r[j]? := by
  have hnames : (schema.map fun info => ResultSchema.mk info.1 ⟨info.2⟩).map
      (fun r => r.name) = schema.map Prod.fst := by
    rw [List.map_map]
    rfl
  have hrow : ∀ r ∈ rows,
      convert_row (schema.map fun info => ResultSchema.mk info.1 ⟨info.2⟩) r =
        some (List.zip (schema.map Prod.fst) r) := by
    intro r hr
    rw [convert_row]
    have hnlt : ¬ ((schema.map fun info =>
        ResultSchema.mk info.1 ⟨info.2⟩).length < r.length) := by
      rw [List.length_map, hlen r hr]
      omega
    rw [if_neg hnlt, hnames]
    rw [dictOfPairs_nodup]
    have hfst : (List.zip (schema.map Prod.fst) r).map Prod.fst =
        schema.map Prod.fst :=
      List.map_fst_zip _ _ (by rw [List.length_map, hlen r hr])
    rw [hfst]
    exact hnodup
  have hmapM : rows.mapM (convert_row
      (schema.map fun info => ResultSchema.mk info.1 ⟨info.2⟩)) =
      some (rows.map fun r => List.zip (schema.map Prod.fst) r) :=
    mapM_option_eq_map hrow
  refine ⟨⟨rows.length,
    some (schema.map fun info => ResultSchema.mk info.1 ⟨info.2⟩),
    rows.map fun r => List.zip (schema.map Prod.fst) r⟩,
    ?_, rfl, rfl, List.length_map _ _, ?_⟩
  · unfold convert_to_job_results
    show (match rows.mapM (convert_row
        (schema.map fun info : String × String =>
          ResultSchema.mk info.1 ⟨info.2⟩)) with
      | none => none
      | some rsrows => some [JobResults.mk rows.length
          (some (schema.map fun info : String × String =>
            ResultSchema.mk info.1 ⟨info.2⟩))
          rsrows]) = _
    rw [hmapM]
  · intro i r hir
    refine ⟨?_, ?_⟩
    · rw [List.getElem?_map, hir]
      rfl
    · intro j name hjn
      exact lookup_zip (schema.map Prod.fst) r j name hnodup hjn

/-- Closed instance of the conversion at a two-column descriptor list and two
fetched rows. -/
theorem convert_single_page_witness :
    ∃ page : JobResults Nat,
      convert_to_job_results [("a", "INT"), ("b", "VARCHAR")] [[1, 2], [3, 4]] =
        some [page]
      ∧ page.row_count = ([[1, 2], [3, 4]] : List (List Nat)).length
      ∧ page.result_schema =
          some (([("a", "INT"), ("b", "VARCHAR")] :
            List (String × String)).map fun info => ResultSchema.mk info.1 ⟨info.2⟩)
      ∧ page.rows.length = ([[1, 2], [3, 4]] : List (List Nat)).length
      ∧ ∀ (i : Nat) (r : List Nat),
          ([[1, 2], [3, 4]] : List (List Nat))[i]? = some r →
          page.rows[i]? = some (List.zip (([("a", "INT"), ("b", "VARCHAR")] :
            List (String × String)).map Prod.fst) r)
          ∧ ∀ (j : Nat) (name : String), (([("a", "INT"), ("b", "VARCHAR")] :
              List (String × String)).map Prod.fst)[j]? = some name →
              (List.zip (([("a", "INT"), ("b", "VARCHAR")] :
                List (String × String)).map Prod.fst) r).lookup name = r[j]? :=
  convert_single_page [("a", "INT"), ("b", "VARCHAR")] [[1, 2], [3, 4]]
    (by decide) (by decide)

end DremioSql
